import Mathlib

/-!
Shallow embedding of the face-overlay pipeline of
`src/하드캐리_pre_mission/src/facemesh_filter.py`.

Rasters are modelled as a structure carrying the height, width and channel
count together with a total pixel function `pix row col channel`; only the
indices `0 ≤ row < hgt`, `0 ≤ col < wdt`, `channel < nch` are meaningful.
Pixel values are `ℕ` standing for the `uint8` samples of the numpy arrays
(all operations below stay within `0..255` when the inputs do).
The float blend `overlay * alpha + background * (1 - alpha)` followed by
`astype(np.uint8)` (truncation toward zero of a non-negative value) is
embedded exactly over `ℚ` as the floor of the convex combination, which for
`uint8` data equals the natural-number division `(o*a + b*(255-a)) / 255`.
-/

open Real

/-- A raster: height, width, number of channels, and the pixel samples.
Channel order is BGR (`0 = blue, 1 = green, 2 = red`), with channel `3`
the alpha plane when `nch = 4`. -/
@[ext]
structure Img where
  hgt : ℕ
  wdt : ℕ
  nch : ℕ
  pix : ℤ → ℤ → ℕ → ℕ

/-- One blended sample: `uint8(o * (a/255) + b * (1 - a/255))` from
`facemesh_filter.py` line 71, written over `ℕ` (`a ≤ 255` in `uint8` data). -/
def blendPixel (o b a : ℕ) : ℕ :=
  (o * a + b * (255 - a)) / 255

/-- The clipped destination and source rectangles computed by
`overlay_image_alpha` (lines 52-61): `x1 y1 x2 y2` index the background,
`ox1 oy1 ox2 oy2` index the overlay. -/
structure ClipRegion where
  x1 : ℤ
  y1 : ℤ
  x2 : ℤ
  y2 : ℤ
  ox1 : ℤ
  oy1 : ℤ
  ox2 : ℤ
  oy2 : ℤ

/-- Lines 52-61 of `facemesh_filter.py`: `x1 = max(0, x)`, `y1 = max(0, y)`,
`x2 = min(bg_w, x + w)`, `y2 = min(bg_h, y + h)`, `overlay_x1 = x1 - x`,
`overlay_y1 = y1 - y`, `overlay_x2 = overlay_x1 + (x2 - x1)`,
`overlay_y2 = overlay_y1 + (y2 - y1)`. -/
def clipRegion (background overlay : Img) (x y : ℤ) : ClipRegion :=
  ⟨max 0 x, max 0 y,
    min (background.wdt : ℤ) (x + overlay.wdt),
    min (background.hgt : ℤ) (y + overlay.hgt),
    max 0 x - x, max 0 y - y,
    (max 0 x - x) + (min (background.wdt : ℤ) (x + overlay.wdt) - max 0 x),
    (max 0 y - y) + (min (background.hgt : ℤ) (y + overlay.hgt) - max 0 y)⟩

/-- `overlay_image_alpha(background, overlay, x, y)` (lines 40-74).
The two early returns are the bounds checks of lines 46-49; otherwise the
pixels of the clipped destination rectangle are alpha-blended with the
corresponding overlay pixels and everything else is left as it was.  The
Python function writes the blend in place into `background` and returns it;
the embedding returns the updated raster. -/
def overlay_image_alpha (background overlay : Img) (x y : ℤ) : Img :=
  if (background.wdt : ℤ) ≤ x ∨ (background.hgt : ℤ) ≤ y then background
  else if x + overlay.wdt ≤ 0 ∨ y + overlay.hgt ≤ 0 then background
  else
    { background with
      pix := fun i j ch =>
        if max 0 y ≤ i ∧ i < min (background.hgt : ℤ) (y + overlay.hgt) ∧
           max 0 x ≤ j ∧ j < min (background.wdt : ℤ) (x + overlay.wdt) then
          blendPixel (overlay.pix (i - y) (j - x) ch) (background.pix i j ch)
            (overlay.pix (i - y) (j - x) 3)
        else background.pix i j ch }

/-- The fixed brightness threshold of the white-background removal
(`gray > 240`, lines 28 and 35). -/
def brightnessThreshold : ℕ := 240

/-- `cv2.cvtColor(..., cv2.COLOR_BGR2GRAY)` on `uint8` data: OpenCV's
fixed-point luminance `(B*1868 + G*9617 + R*4899 + 2^13) >> 14`
(the coefficients are the 14-bit fixed-point images of 0.114, 0.587, 0.299
and sum to `2^14`). -/
def grayAt (img : Img) (i j : ℤ) : ℕ :=
  (img.pix i j 0 * 1868 + img.pix i j 1 * 9617 + img.pix i j 2 * 4899 + 8192) / 16384

/-- Lines 18-38 of `load_sunglasses_with_alpha`: synthesize / rewrite the
alpha plane.  A 3-channel image is first extended with an alpha plane
(`cv2.COLOR_BGR2BGRA`) which is then set to `0` where `gray > 240` and `255`
elsewhere; a raster that already has an alpha plane keeps its alpha except
where `gray > 240`, where it is forced to `0`.  Colour channels are
untouched in both branches. -/
def deriveAlphaImage (img : Img) : Img :=
  if img.nch = 3 then
    { img with
      nch := 4
      pix := fun i j ch =>
        if ch = 3 then
          (if brightnessThreshold < grayAt img i j then 0 else 255)
        else img.pix i j ch }
  else
    { img with
      pix := fun i j ch =>
        if ch = 3 then
          (if brightnessThreshold < grayAt img i j then 0 else img.pix i j 3)
        else img.pix i j ch }

/-- The possible results of `cv2.imdecode(..., cv2.IMREAD_UNCHANGED)` on an
image file: decoding failure (`None`), a two-dimensional grayscale array
(shape `(h, w)`, no channel axis), or a three-dimensional array with a
channel axis. -/
inductive DecodeOut where
  | fail : DecodeOut
  | gray2d : ℕ → ℕ → (ℤ → ℤ → ℕ) → DecodeOut
  | nd : Img → DecodeOut

/-- Outcomes of `load_sunglasses_with_alpha`: the `None` sentinel of
line 16, a loaded raster, the `IndexError` raised by `img.shape[2]` on a
two-dimensional array (line 19), or the `cv2.error` raised by
`cvtColor` when the array has fewer than three channels. -/
inductive LoadResult where
  | sentinel : LoadResult
  | ok : Img → LoadResult
  | indexError : LoadResult
  | cvtError : LoadResult

/-- `load_sunglasses_with_alpha` (lines 7-38) as a function of the decode
result: `None` propagates as the sentinel; a two-dimensional array makes
`img.shape[2]` raise `IndexError`; an array with a channel axis goes through
the alpha derivation (which needs at least three colour channels, and an
alpha slot in the `else` branch, so fewer than four channels outside the
`nch = 3` branch raise inside OpenCV). -/
def load_sunglasses_with_alpha : DecodeOut → LoadResult
  | .fail => .sentinel
  | .gray2d _ _ _ => .indexError
  | .nd img =>
    if img.nch = 3 then .ok (deriveAlphaImage img)
    else if 4 ≤ img.nch then .ok (deriveAlphaImage img)
    else .cvtError

/-! ### Per-face geometry of `main` (lines 186-206) -/

/-- `np.arctan2 y x` on real inputs (pixel coordinates are integers, so the
signed-zero corner of the float function never arises). -/
noncomputable def atan2 (y x : ℝ) : ℝ :=
  if 0 < x then Real.arctan (y / x)
  else if x < 0 then
    (if 0 ≤ y then Real.arctan (y / x) + π else Real.arctan (y / x) - π)
  else if 0 < y then π / 2
  else if y < 0 then -(π / 2)
  else 0

/-- `eye_distance` (lines 186-187): the euclidean distance between the two
iris centres, in pixels. -/
noncomputable def eye_distance (lx ly rx ry : ℤ) : ℝ :=
  Real.sqrt (((rx - lx) ^ 2 + (ry - ly) ^ 2 : ℤ) : ℝ)

/-- `angle` (lines 189-190): `np.degrees(np.arctan2(ry - ly, rx - lx))`. -/
noncomputable def angleDeg (lx ly rx ry : ℤ) : ℝ :=
  atan2 ((ry - ly : ℤ) : ℝ) ((rx - lx : ℤ) : ℝ) * 180 / π

/-- `scale` (line 195): `(eye_distance * 2.5) / original_sunglasses_width`. -/
noncomputable def sunglassesScale (lx ly rx ry : ℤ) (origWdt : ℕ) : ℝ :=
  eye_distance lx ly rx ry * 2.5 / origWdt

/-! ### `rotate_and_scale_image` (lines 76-97) -/

/-- A 2×3 affine matrix, row-major as OpenCV lays it out. -/
structure AffineM where
  m00 : ℝ
  m01 : ℝ
  m02 : ℝ
  m10 : ℝ
  m11 : ℝ
  m12 : ℝ

/-- `cv2.getRotationMatrix2D((cx, cy), angle, scale)`:
with `a = scale*cos(angle°)` and `b = scale*sin(angle°)` the matrix is
`[[a, b, (1-a)*cx - b*cy], [-b, a, b*cx + (1-a)*cy]]`. -/
noncomputable def getRotationMatrix2D (cx cy angle scale : ℝ) : AffineM :=
  ⟨scale * Real.cos (angle * π / 180), scale * Real.sin (angle * π / 180),
    (1 - scale * Real.cos (angle * π / 180)) * cx - scale * Real.sin (angle * π / 180) * cy,
    -(scale * Real.sin (angle * π / 180)), scale * Real.cos (angle * π / 180),
    scale * Real.sin (angle * π / 180) * cx + (1 - scale * Real.cos (angle * π / 180)) * cy⟩

/-- The matrix `M` of line 82, centred at `(w // 2, h // 2)`. -/
noncomputable def rotMat (img : Img) (angle scale : ℝ) : AffineM :=
  getRotationMatrix2D ((img.wdt / 2 : ℕ) : ℝ) ((img.hgt / 2 : ℕ) : ℝ) angle scale

/-- `new_w = int(h * sin + w * cos)` (line 87) with `cos = |M[0,0]|`,
`sin = |M[0,1]|`; the arguments of `int(...)` are non-negative, so Python's
truncation toward zero is the floor. -/
noncomputable def newW (img : Img) (angle scale : ℝ) : ℤ :=
  ⌊(img.hgt : ℝ) * |(rotMat img angle scale).m01| +
    (img.wdt : ℝ) * |(rotMat img angle scale).m00|⌋

/-- `new_h = int(h * cos + w * sin)` (line 88). -/
noncomputable def newH (img : Img) (angle scale : ℝ) : ℤ :=
  ⌊(img.hgt : ℝ) * |(rotMat img angle scale).m00| +
    (img.wdt : ℝ) * |(rotMat img angle scale).m01|⌋

/-- Lines 91-92: the translation column is shifted so the source centre maps
to the centre of the enlarged canvas. -/
noncomputable def adjMat (img : Img) (angle scale : ℝ) : AffineM :=
  { rotMat img angle scale with
    m02 := (rotMat img angle scale).m02 + ((newW img angle scale : ℝ) - img.wdt) / 2
    m12 := (rotMat img angle scale).m12 + ((newH img angle scale : ℝ) - img.hgt) / 2 }

/-- `cv2.invertAffineTransform`: the inverse affine map, with the
determinant guard OpenCV uses (`D = D != 0 ? 1/D : 0`). -/
noncomputable def invertAffine (M : AffineM) : AffineM :=
  ⟨M.m11 * (if M.m00 * M.m11 - M.m01 * M.m10 = 0 then 0 else 1 / (M.m00 * M.m11 - M.m01 * M.m10)),
    -(M.m01 * (if M.m00 * M.m11 - M.m01 * M.m10 = 0 then 0 else 1 / (M.m00 * M.m11 - M.m01 * M.m10))),
    (M.m01 * M.m12 - M.m11 * M.m02) *
      (if M.m00 * M.m11 - M.m01 * M.m10 = 0 then 0 else 1 / (M.m00 * M.m11 - M.m01 * M.m10)),
    -(M.m10 * (if M.m00 * M.m11 - M.m01 * M.m10 = 0 then 0 else 1 / (M.m00 * M.m11 - M.m01 * M.m10))),
    M.m00 * (if M.m00 * M.m11 - M.m01 * M.m10 = 0 then 0 else 1 / (M.m00 * M.m11 - M.m01 * M.m10)),
    (M.m10 * M.m02 - M.m00 * M.m12) *
      (if M.m00 * M.m11 - M.m01 * M.m10 = 0 then 0 else 1 / (M.m00 * M.m11 - M.m01 * M.m10))⟩

/-- Bilinear sampling of a source raster at real coordinates `(sy, sx)` with
`BORDER_CONSTANT` value `0` outside the array. -/
noncomputable def bilinear (src : Img) (sy sx : ℝ) (ch : ℕ) : ℝ :=
  (1 - (sy - ⌊sy⌋)) *
      ((1 - (sx - ⌊sx⌋)) *
          (if 0 ≤ ⌊sy⌋ ∧ ⌊sy⌋ < (src.hgt : ℤ) ∧ 0 ≤ ⌊sx⌋ ∧ ⌊sx⌋ < (src.wdt : ℤ) then
            (src.pix ⌊sy⌋ ⌊sx⌋ ch : ℝ) else 0) +
        (sx - ⌊sx⌋) *
          (if 0 ≤ ⌊sy⌋ ∧ ⌊sy⌋ < (src.hgt : ℤ) ∧ 0 ≤ ⌊sx⌋ + 1 ∧ ⌊sx⌋ + 1 < (src.wdt : ℤ) then
            (src.pix ⌊sy⌋ (⌊sx⌋ + 1) ch : ℝ) else 0)) +
    (sy - ⌊sy⌋) *
      ((1 - (sx - ⌊sx⌋)) *
          (if 0 ≤ ⌊sy⌋ + 1 ∧ ⌊sy⌋ + 1 < (src.hgt : ℤ) ∧ 0 ≤ ⌊sx⌋ ∧ ⌊sx⌋ < (src.wdt : ℤ) then
            (src.pix (⌊sy⌋ + 1) ⌊sx⌋ ch : ℝ) else 0) +
        (sx - ⌊sx⌋) *
          (if 0 ≤ ⌊sy⌋ + 1 ∧ ⌊sy⌋ + 1 < (src.hgt : ℤ) ∧ 0 ≤ ⌊sx⌋ + 1 ∧ ⌊sx⌋ + 1 < (src.wdt : ℤ) then
            (src.pix (⌊sy⌋ + 1) (⌊sx⌋ + 1) ch : ℝ) else 0))

/-- `cv2.warpAffine(src, M, (dw, dh), INTER_LINEAR, BORDER_CONSTANT, 0)`:
each destination pixel `(row i, col j)` samples the source at the
inverse-mapped point, bilinearly interpolated, and the sample is rounded
back to an integer value. -/
noncomputable def warpAffine (src : Img) (M : AffineM) (dw dh : ℕ) : Img :=
  { hgt := dh
    wdt := dw
    nch := src.nch
    pix := fun i j ch =>
      (round (bilinear src
          ((invertAffine M).m10 * (j : ℝ) + (invertAffine M).m11 * (i : ℝ) + (invertAffine M).m12)
          ((invertAffine M).m00 * (j : ℝ) + (invertAffine M).m01 * (i : ℝ) + (invertAffine M).m02)
          ch)).toNat }

/-- `rotate_and_scale_image(img, angle, scale)` (lines 76-97). -/
noncomputable def rotate_and_scale_image (img : Img) (angle scale : ℝ) : Img :=
  warpAffine img (adjMat img angle scale) (newW img angle scale).toNat (newH img angle scale).toNat

/-- Line 198 of `main`: the overlay is transformed with the **negative** of
the measured angle and the derived scale. -/
noncomputable def transformedSunglasses (img : Img) (lx ly rx ry : ℤ) : Img :=
  rotate_and_scale_image img (-(angleDeg lx ly rx ry)) (sunglassesScale lx ly rx ry img.wdt)

/-! ## Helper lemmas about `overlay_image_alpha` -/

lemma blendPixel_zero (o b : ℕ) : blendPixel o b 0 = b := by
  simp [blendPixel]

lemma blendPixel_full (o b : ℕ) : blendPixel o b 255 = o := by
  simp [blendPixel]

/-- The `uint8` blend equals the floor of the real-valued convex combination
`o * (a/255) + b * (1 - a/255)` whenever the alpha sample is a `uint8`. -/
lemma blendPixel_eq_floor (o b a : ℕ) (ha : a ≤ 255) :
    (blendPixel o b a : ℤ) =
      ⌊(o : ℚ) * ((a : ℚ) / 255) + (b : ℚ) * (1 - (a : ℚ) / 255)⌋ := by
  have h1 : (o : ℚ) * ((a : ℚ) / 255) + (b : ℚ) * (1 - (a : ℚ) / 255) =
      (((o * a + b * (255 - a) : ℕ) : ℤ) : ℚ) / ((255 : ℕ) : ℚ) := by
    push_cast [ha]
    ring
  rw [h1, Rat.floor_intCast_div_natCast]
  simp [blendPixel, Int.ofNat_tdiv]

lemma overlay_image_alpha_hgt (bg ov : Img) (x y : ℤ) :
    (overlay_image_alpha bg ov x y).hgt = bg.hgt := by
  unfold overlay_image_alpha
  split
  · rfl
  · split
    · rfl
    · rfl

lemma overlay_image_alpha_wdt (bg ov : Img) (x y : ℤ) :
    (overlay_image_alpha bg ov x y).wdt = bg.wdt := by
  unfold overlay_image_alpha
  split
  · rfl
  · split
    · rfl
    · rfl

lemma overlay_image_alpha_nch (bg ov : Img) (x y : ℤ) :
    (overlay_image_alpha bg ov x y).nch = bg.nch := by
  unfold overlay_image_alpha
  split
  · rfl
  · split
    · rfl
    · rfl

/-- Any pixel outside the overlay's placement rectangle is untouched. -/
lemma overlay_pix_outside (bg ov : Img) (x y i j : ℤ) (ch : ℕ)
    (h : ¬(y ≤ i ∧ i < y + ov.hgt ∧ x ≤ j ∧ j < x + ov.wdt)) :
    (overlay_image_alpha bg ov x y).pix i j ch = bg.pix i j ch := by
  unfold overlay_image_alpha
  split
  · rfl
  · split
    · rfl
    · dsimp only
      rw [if_neg]
      intro hc
      exact h ⟨le_trans (le_max_right 0 y) hc.1,
        lt_of_lt_of_le hc.2.1 (min_le_right _ _),
        le_trans (le_max_right 0 x) hc.2.2.1,
        lt_of_lt_of_le hc.2.2.2 (min_le_right _ _)⟩

/-- A pixel inside both the background and the placement rectangle receives
exactly the alpha blend of the matching overlay sample. -/
lemma overlay_pix_inside (bg ov : Img) (x y i j : ℤ) (ch : ℕ)
    (h1 : 0 ≤ i) (h2 : i < bg.hgt) (h3 : 0 ≤ j) (h4 : j < bg.wdt)
    (h5 : y ≤ i) (h6 : i < y + ov.hgt) (h7 : x ≤ j) (h8 : j < x + ov.wdt) :
    (overlay_image_alpha bg ov x y).pix i j ch =
      blendPixel (ov.pix (i - y) (j - x) ch) (bg.pix i j ch)
        (ov.pix (i - y) (j - x) 3) := by
  unfold overlay_image_alpha
  split
  · next hg => exact absurd hg (by omega)
  · split
    · next hg => exact absurd hg (by omega)
    · dsimp only
      rw [if_pos (by omega)]

/-- Closed form of the composite's pixel function: the clipped-rectangle
condition selects between the blend and the untouched background sample. -/
lemma overlay_pix_eq (bg ov : Img) (x y i j : ℤ) (ch : ℕ) :
    (overlay_image_alpha bg ov x y).pix i j ch =
      if max 0 y ≤ i ∧ i < min (bg.hgt : ℤ) (y + ov.hgt) ∧
         max 0 x ≤ j ∧ j < min (bg.wdt : ℤ) (x + ov.wdt) then
        blendPixel (ov.pix (i - y) (j - x) ch) (bg.pix i j ch)
          (ov.pix (i - y) (j - x) 3)
      else bg.pix i j ch := by
  unfold overlay_image_alpha
  split
  · next hg => rw [if_neg (by omega)]
  · split
    · next hg => rw [if_neg (by omega)]
    · rfl

/-! ## Concrete test rasters for the closed evaluation theorems -/

/-- A 2×2 BGR background, every sample `10`. -/
def bgT : Img := ⟨2, 2, 3, fun _ _ _ => 10⟩

/-- A 2×2 fully opaque BGRA overlay, colour `40`. -/
def ovOpaque : Img := ⟨2, 2, 4, fun _ _ ch => if ch = 3 then 255 else 40⟩

/-- A 2×2 fully transparent BGRA overlay, colour `40`. -/
def ovClear : Img := ⟨2, 2, 4, fun _ _ ch => if ch = 3 then 0 else 40⟩

/-- A 1×1 half-transparent BGRA overlay, colour `200`. -/
def ovHalf : Img := ⟨1, 1, 4, fun _ _ ch => if ch = 3 then 128 else 200⟩

/-! ## Claim theorems: alpha compositing -/

/-- **C1** — For every background, alpha overlay and placement whose
rectangle meets the background, `overlay_image_alpha` blends exactly the
intersecting pixels by `overlay * alpha + background * (1 - alpha)` with the
alpha plane normalised to `[0, 1]` (the `uint8` store floors the real
value); with full overlap an everywhere-opaque overlay writes the overlay
colour exactly, and an everywhere-transparent overlay returns the
background exactly unchanged. -/
theorem c1_overlay_blend_formula (bg ov : Img) (x y : ℤ) :
    (∀ i j : ℤ, ∀ ch : ℕ, ch < 3 →
        0 ≤ i → i < bg.hgt → 0 ≤ j → j < bg.wdt →
        y ≤ i → i < y + ov.hgt → x ≤ j → j < x + ov.wdt →
        ov.pix (i - y) (j - x) 3 ≤ 255 →
        ((overlay_image_alpha bg ov x y).pix i j ch : ℤ) =
          ⌊(ov.pix (i - y) (j - x) ch : ℚ) * ((ov.pix (i - y) (j - x) 3 : ℚ) / 255) +
            (bg.pix i j ch : ℚ) * (1 - (ov.pix (i - y) (j - x) 3 : ℚ) / 255)⌋) ∧
    (0 ≤ x → 0 ≤ y → x + ov.wdt ≤ bg.wdt → y + ov.hgt ≤ bg.hgt →
      (∀ r : ℕ, r < ov.hgt → ∀ c : ℕ, c < ov.wdt → ov.pix r c 3 = 255) →
      ∀ i j : ℤ, ∀ ch : ℕ, ch < 3 → y ≤ i → i < y + ov.hgt → x ≤ j → j < x + ov.wdt →
        (overlay_image_alpha bg ov x y).pix i j ch = ov.pix (i - y) (j - x) ch) ∧
    ((∀ r : ℕ, r < ov.hgt → ∀ c : ℕ, c < ov.wdt → ov.pix r c 3 = 0) →
      overlay_image_alpha bg ov x y = bg) := by
  refine ⟨?_, ?_, ?_⟩
  · intro i j ch _ h1 h2 h3 h4 h5 h6 h7 h8 ha
    rw [overlay_pix_inside bg ov x y i j ch h1 h2 h3 h4 h5 h6 h7 h8]
    exact blendPixel_eq_floor _ _ _ ha
  · intro hx hy hxw hyh hop i j ch _ h5 h6 h7 h8
    rw [overlay_pix_inside bg ov x y i j ch (by omega) (by omega) (by omega) (by omega)
      h5 h6 h7 h8]
    have hr := hop (i - y).toNat (by omega) (j - x).toNat (by omega)
    rw [Int.toNat_of_nonneg (by omega), Int.toNat_of_nonneg (by omega)] at hr
    rw [hr, blendPixel_full]
  · intro hcl
    refine Img.ext (overlay_image_alpha_hgt bg ov x y) (overlay_image_alpha_wdt bg ov x y)
      (overlay_image_alpha_nch bg ov x y) ?_
    funext i j ch
    rw [overlay_pix_eq]
    split
    · next hc =>
      have hr := hcl (i - y).toNat (by omega) (j - x).toNat (by omega)
      rw [Int.toNat_of_nonneg (by omega), Int.toNat_of_nonneg (by omega)] at hr
      rw [hr, blendPixel_zero]
    · rfl

/-- Evaluation of **C1** at concrete rasters: a half-transparent overlay on
`bgT`, a fully opaque overlay, and a fully transparent overlay. -/
theorem c1_overlay_blend_formula_witness :
    (((overlay_image_alpha bgT ovHalf 0 0).pix 0 0 0 : ℤ) =
      ⌊(ovHalf.pix (0 - 0) (0 - 0) 0 : ℚ) * ((ovHalf.pix (0 - 0) (0 - 0) 3 : ℚ) / 255) +
        (bgT.pix 0 0 0 : ℚ) * (1 - (ovHalf.pix (0 - 0) (0 - 0) 3 : ℚ) / 255)⌋) ∧
    ((overlay_image_alpha bgT ovOpaque 0 0).pix 1 1 2 = ovOpaque.pix (1 - 0) (1 - 0) 2) ∧
    overlay_image_alpha bgT ovClear 0 0 = bgT :=
  ⟨(c1_overlay_blend_formula bgT ovHalf 0 0).1 0 0 0 (by decide) (by decide) (by decide)
      (by decide) (by decide) (by decide) (by decide) (by decide) (by decide) (by decide),
    (c1_overlay_blend_formula bgT ovOpaque 0 0).2.1 (by decide) (by decide) (by decide)
      (by decide) (by decide) 1 1 2 (by decide) (by decide) (by decide) (by decide) (by decide),
    (c1_overlay_blend_formula bgT ovClear 0 0).2.2 (by decide)⟩

/-- **C2** — A placement whose rectangle misses every background pixel
leaves the background exactly as it was (both early returns and the empty
clipped rectangle produce it unchanged, with no out-of-range access); for
any placement, all background pixels outside the placement rectangle keep
their values, and the returned raster has the background's dimensions
(the Python function blends in place into `background` and returns it). -/
theorem c2_nonintersecting_untouched (bg ov : Img) (x y : ℤ) :
    ((∀ i : ℕ, i < bg.hgt → ∀ j : ℕ, j < bg.wdt →
        ¬(y ≤ (i : ℤ) ∧ (i : ℤ) < y + ov.hgt ∧ x ≤ (j : ℤ) ∧ (j : ℤ) < x + ov.wdt)) →
      overlay_image_alpha bg ov x y = bg) ∧
    (∀ i j : ℤ, ∀ ch : ℕ,
      ¬(y ≤ i ∧ i < y + ov.hgt ∧ x ≤ j ∧ j < x + ov.wdt) →
      (overlay_image_alpha bg ov x y).pix i j ch = bg.pix i j ch) ∧
    (overlay_image_alpha bg ov x y).hgt = bg.hgt ∧
    (overlay_image_alpha bg ov x y).wdt = bg.wdt ∧
    (overlay_image_alpha bg ov x y).nch = bg.nch := by
  refine ⟨?_, fun i j ch h => overlay_pix_outside bg ov x y i j ch h,
    overlay_image_alpha_hgt bg ov x y, overlay_image_alpha_wdt bg ov x y,
    overlay_image_alpha_nch bg ov x y⟩
  intro hno
  refine Img.ext (overlay_image_alpha_hgt bg ov x y) (overlay_image_alpha_wdt bg ov x y)
    (overlay_image_alpha_nch bg ov x y) ?_
  funext i j ch
  rw [overlay_pix_eq, if_neg]
  intro hc
  have h0i : (0 : ℤ) ≤ i := le_trans (le_max_left 0 y) hc.1
  have h0j : (0 : ℤ) ≤ j := le_trans (le_max_left 0 x) hc.2.2.1
  have hb := hno i.toNat (by omega) j.toNat (by omega)
  rw [Int.toNat_of_nonneg h0i, Int.toNat_of_nonneg h0j] at hb
  omega

/-- Evaluation of **C2**: a 2×2 overlay placed at `x = 5` misses the 2×2
background entirely and the composite is the background itself. -/
theorem c2_nonintersecting_untouched_witness :
    (∀ i : ℕ, i < bgT.hgt → ∀ j : ℕ, j < bgT.wdt →
      ¬((0 : ℤ) ≤ (i : ℤ) ∧ (i : ℤ) < 0 + ovOpaque.hgt ∧
        (5 : ℤ) ≤ (j : ℤ) ∧ (j : ℤ) < 5 + ovOpaque.wdt)) ∧
    overlay_image_alpha bgT ovOpaque 5 0 = bgT :=
  ⟨by decide, (c2_nonintersecting_untouched bgT ovOpaque 5 0).1 (by decide)⟩

/-- A 1×2 background used by the degenerate-overlay counterexample. -/
def bg9 : Img := ⟨1, 2, 3, fun _ _ _ => 0⟩

/-- A 1×0 (zero-width) overlay used by the degenerate-overlay
counterexample. -/
def ov9 : Img := ⟨1, 0, 4, fun _ _ _ => 0⟩

/-- **C9** (amended) — When both rasters have positive dimensions, every
placement that passes the two early bounds checks yields a non-empty
clipped destination rectangle inside the background, a source slice inside
the overlay, and slices of equal size, so every index used by the blend is
in range. -/
theorem c9_clip_region_safe (bg ov : Img) (x y : ℤ)
    (hw : 0 < ov.wdt) (hh : 0 < ov.hgt) (hbw : 0 < bg.wdt) (hbh : 0 < bg.hgt)
    (hg1 : ¬((bg.wdt : ℤ) ≤ x ∨ (bg.hgt : ℤ) ≤ y))
    (hg2 : ¬(x + (ov.wdt : ℤ) ≤ 0 ∨ y + (ov.hgt : ℤ) ≤ 0)) :
    0 ≤ (clipRegion bg ov x y).x1 ∧
    (clipRegion bg ov x y).x1 < (clipRegion bg ov x y).x2 ∧
    (clipRegion bg ov x y).x2 ≤ (bg.wdt : ℤ) ∧
    0 ≤ (clipRegion bg ov x y).y1 ∧
    (clipRegion bg ov x y).y1 < (clipRegion bg ov x y).y2 ∧
    (clipRegion bg ov x y).y2 ≤ (bg.hgt : ℤ) ∧
    0 ≤ (clipRegion bg ov x y).ox1 ∧
    (clipRegion bg ov x y).ox2 ≤ (ov.wdt : ℤ) ∧
    0 ≤ (clipRegion bg ov x y).oy1 ∧
    (clipRegion bg ov x y).oy2 ≤ (ov.hgt : ℤ) ∧
    (clipRegion bg ov x y).ox2 - (clipRegion bg ov x y).ox1 =
      (clipRegion bg ov x y).x2 - (clipRegion bg ov x y).x1 ∧
    (clipRegion bg ov x y).oy2 - (clipRegion bg ov x y).oy1 =
      (clipRegion bg ov x y).y2 - (clipRegion bg ov x y).y1 := by
  simp only [clipRegion]
  omega

/-- Evaluation of **C9** at a partially off-screen placement `(-1, 1)` of a
2×2 overlay on a 2×2 background. -/
theorem c9_clip_region_safe_witness :
    (0 < ovOpaque.wdt ∧ 0 < ovOpaque.hgt ∧ 0 < bgT.wdt ∧ 0 < bgT.hgt ∧
      ¬((bgT.wdt : ℤ) ≤ -1 ∨ (bgT.hgt : ℤ) ≤ 1) ∧
      ¬((-1 : ℤ) + (ovOpaque.wdt : ℤ) ≤ 0 ∨ (1 : ℤ) + (ovOpaque.hgt : ℤ) ≤ 0)) ∧
    ((clipRegion bgT ovOpaque (-1) 1).x1 < (clipRegion bgT ovOpaque (-1) 1).x2 ∧
      (clipRegion bgT ovOpaque (-1) 1).y1 < (clipRegion bgT ovOpaque (-1) 1).y2) :=
  ⟨⟨by decide, by decide, by decide, by decide, by decide, by decide⟩,
    ⟨(c9_clip_region_safe bgT ovOpaque (-1) 1 (by decide) (by decide) (by decide)
        (by decide) (by decide) (by decide)).2.1,
      (c9_clip_region_safe bgT ovOpaque (-1) 1 (by decide) (by decide) (by decide)
        (by decide) (by decide) (by decide)).2.2.2.2.1⟩⟩

/-- Counterexample to **C9** as stated: a zero-width overlay placed at
`(1, 0)` on a 1×2 background passes both early bounds checks, yet the
clipped destination rectangle is empty (`x1 = x2 = 1`). -/
theorem c9_counterexample :
    ¬((bg9.wdt : ℤ) ≤ 1 ∨ (bg9.hgt : ℤ) ≤ 0) ∧
    ¬((1 : ℤ) + (ov9.wdt : ℤ) ≤ 0 ∨ (0 : ℤ) + (ov9.hgt : ℤ) ≤ 0) ∧
    ¬((clipRegion bg9 ov9 1 0).x1 < (clipRegion bg9 ov9 1 0).x2) := by
  refine ⟨by decide, by decide, ?_⟩
  simp only [clipRegion, bg9, ov9]
  decide

/-! ## Helper lemmas about `deriveAlphaImage` -/

lemma deriveAlpha_hgt (img : Img) : (deriveAlphaImage img).hgt = img.hgt := by
  unfold deriveAlphaImage
  split
  · rfl
  · rfl

lemma deriveAlpha_wdt (img : Img) : (deriveAlphaImage img).wdt = img.wdt := by
  unfold deriveAlphaImage
  split
  · rfl
  · rfl

/-- The derivation never leaves a three-channel image: the `nch = 3` branch
extends to four channels, the other branch keeps the channel count. -/
lemma deriveAlpha_nch_ne3 (img : Img) : (deriveAlphaImage img).nch ≠ 3 := by
  unfold deriveAlphaImage
  split
  · exact (by decide : (4 : ℕ) ≠ 3)
  · next h => exact h

lemma deriveAlpha_nch (img : Img) :
    (deriveAlphaImage img).nch = if img.nch = 3 then 4 else img.nch := by
  unfold deriveAlphaImage
  split
  · rfl
  · rfl


/-- Colour channels are untouched by the alpha derivation. -/
lemma deriveAlpha_pix_ne3 (img : Img) (i j : ℤ) (ch : ℕ) (h : ch ≠ 3) :
    (deriveAlphaImage img).pix i j ch = img.pix i j ch := by
  unfold deriveAlphaImage
  split
  · dsimp only
    rw [if_neg h]
  · dsimp only
    rw [if_neg h]

/-- Hence the luminance of the derived image is that of the source. -/
lemma deriveAlpha_gray (img : Img) (i j : ℤ) :
    grayAt (deriveAlphaImage img) i j = grayAt img i j := by
  unfold grayAt
  rw [deriveAlpha_pix_ne3 img i j 0 (by decide), deriveAlpha_pix_ne3 img i j 1 (by decide),
    deriveAlpha_pix_ne3 img i j 2 (by decide)]

/-- A pixel the brightness test fires on ends fully transparent. -/
lemma deriveAlpha_pix3_bright (img : Img) (i j : ℤ)
    (h : brightnessThreshold < grayAt img i j) :
    (deriveAlphaImage img).pix i j 3 = 0 := by
  unfold deriveAlphaImage
  split
  · dsimp only
    rw [if_pos rfl, if_pos h]
  · dsimp only
    rw [if_pos rfl, if_pos h]

/-- The `else` branch of lines 32-36 in closed form. -/
lemma deriveAlpha_of_ne3 (img : Img) (h : img.nch ≠ 3) :
    deriveAlphaImage img =
      { img with
        pix := fun i j ch =>
          if ch = 3 then
            (if brightnessThreshold < grayAt img i j then 0 else img.pix i j 3)
          else img.pix i j ch } := by
  unfold deriveAlphaImage
  rw [if_neg h]

/-! ## Claim theorems: alpha synthesis by the loader -/

/-- A 1×1 all-black source without alpha: luminance `0`. -/
def imgDark : Img := ⟨1, 1, 3, fun _ _ _ => 0⟩

/-- A 1×1 all-white source without alpha: luminance `255`. -/
def imgWhite : Img := ⟨1, 1, 3, fun _ _ _ => 255⟩

/-- A 1×1 source without alpha whose pixel sits exactly at the threshold:
luminance `240`. -/
def img240 : Img := ⟨1, 1, 3, fun _ _ _ => 240⟩

/-- A 1×1 four-channel source with a dark colour and alpha `7`. -/
def img4alpha : Img := ⟨1, 1, 4, fun _ _ ch => if ch = 3 then 7 else 0⟩

/-- **C3** (amended) — For a source without a transparency channel, if every
pixel's luminance is below the threshold the synthesized alpha plane is
`255` everywhere, and if every pixel's luminance is strictly above the
threshold it is `0` everywhere.  (At luminance exactly `240` the mask
`gray > 240` does not fire, so `at or above` fails; see the
counterexample.) -/
theorem c3_threshold_alpha (img : Img) (h3 : img.nch = 3) :
    ((∀ i : ℕ, i < img.hgt → ∀ j : ℕ, j < img.wdt →
        grayAt img (i : ℤ) (j : ℤ) < brightnessThreshold) →
      ∀ i : ℕ, i < img.hgt → ∀ j : ℕ, j < img.wdt →
        (deriveAlphaImage img).pix (i : ℤ) (j : ℤ) 3 = 255) ∧
    ((∀ i : ℕ, i < img.hgt → ∀ j : ℕ, j < img.wdt →
        brightnessThreshold < grayAt img (i : ℤ) (j : ℤ)) →
      ∀ i : ℕ, i < img.hgt → ∀ j : ℕ, j < img.wdt →
        (deriveAlphaImage img).pix (i : ℤ) (j : ℤ) 3 = 0) := by
  constructor
  · intro hdk i hi j hj
    unfold deriveAlphaImage
    rw [if_pos h3]
    dsimp only
    rw [if_pos rfl, if_neg (by have := hdk i hi j hj; omega)]
  · intro hbr i hi j hj
    exact deriveAlpha_pix3_bright img i j (hbr i hi j hj)

/-- Evaluation of **C3**: the all-black source becomes fully opaque and the
all-white source fully transparent. -/
theorem c3_threshold_alpha_witness :
    ((imgDark.nch = 3 ∧
        ∀ i : ℕ, i < imgDark.hgt → ∀ j : ℕ, j < imgDark.wdt →
          grayAt imgDark (i : ℤ) (j : ℤ) < brightnessThreshold) ∧
      (deriveAlphaImage imgDark).pix 0 0 3 = 255) ∧
    ((imgWhite.nch = 3 ∧
        ∀ i : ℕ, i < imgWhite.hgt → ∀ j : ℕ, j < imgWhite.wdt →
          brightnessThreshold < grayAt imgWhite (i : ℤ) (j : ℤ)) ∧
      (deriveAlphaImage imgWhite).pix 0 0 3 = 0) :=
  ⟨⟨⟨by decide, by decide⟩,
      (c3_threshold_alpha imgDark (by decide)).1 (by decide) 0 (by decide) 0 (by decide)⟩,
    ⟨⟨by decide, by decide⟩,
      (c3_threshold_alpha imgWhite (by decide)).2 (by decide) 0 (by decide) 0 (by decide)⟩⟩

/-- Counterexample to **C3** as stated: the source whose single pixel has
luminance exactly `240` is everywhere `at or above` the threshold, yet the
synthesized alpha is `255`, not `0`. -/
theorem c3_counterexample :
    img240.nch = 3 ∧
    (∀ i : ℕ, i < img240.hgt → ∀ j : ℕ, j < img240.wdt →
      brightnessThreshold ≤ grayAt img240 (i : ℤ) (j : ℤ)) ∧
    (deriveAlphaImage img240).pix 0 0 3 = 255 ∧
    (deriveAlphaImage img240).pix 0 0 3 ≠ 0 := by
  refine ⟨by decide, by decide, by decide, by decide⟩

/-- **C4** (amended) — For every source image, the loader's derivation sets
every pixel whose luminance exceeds the fixed threshold to fully
transparent; every other pixel is fully opaque when the source had no
transparency channel, and keeps its existing transparency when it had one.
Colour channels are untouched. -/
theorem c4_alpha_overwrite (img : Img) (i j : ℤ) :
    (brightnessThreshold < grayAt img i j → (deriveAlphaImage img).pix i j 3 = 0) ∧
    (¬brightnessThreshold < grayAt img i j → img.nch = 3 →
      (deriveAlphaImage img).pix i j 3 = 255) ∧
    (¬brightnessThreshold < grayAt img i j → img.nch ≠ 3 →
      (deriveAlphaImage img).pix i j 3 = img.pix i j 3) ∧
    (∀ ch : ℕ, ch ≠ 3 → (deriveAlphaImage img).pix i j ch = img.pix i j ch) := by
  refine ⟨fun h => deriveAlpha_pix3_bright img i j h, ?_, ?_,
    fun ch h => deriveAlpha_pix_ne3 img i j ch h⟩
  · intro hdim h3
    unfold deriveAlphaImage
    rw [if_pos h3]
    dsimp only
    rw [if_pos rfl, if_neg hdim]
  · intro hdim h3
    rw [deriveAlpha_of_ne3 img h3]
    dsimp only
    rw [if_pos rfl, if_neg hdim]

/-- Evaluation of **C4**: on the dark four-channel source `img4alpha` the
test does not fire and the existing alpha `7` is preserved; on the
all-white three-channel source the test fires and alpha becomes `0`. -/
theorem c4_alpha_overwrite_witness :
    ((¬brightnessThreshold < grayAt img4alpha 0 0 ∧ img4alpha.nch ≠ 3) ∧
      (deriveAlphaImage img4alpha).pix 0 0 3 = img4alpha.pix 0 0 3) ∧
    (brightnessThreshold < grayAt imgWhite 0 0 ∧
      (deriveAlphaImage imgWhite).pix 0 0 3 = 0) :=
  ⟨⟨⟨by decide, by decide⟩,
      (c4_alpha_overwrite img4alpha 0 0).2.2.1 (by decide) (by decide)⟩,
    ⟨by decide, (c4_alpha_overwrite imgWhite 0 0).1 (by decide)⟩⟩

/-- Counterexample to **C4** as stated: on the four-channel source with
alpha `7` and a dark colour, the non-firing pixel is *not* set fully
opaque — its transparency stays `7`. -/
theorem c4_counterexample :
    ¬brightnessThreshold < grayAt img4alpha 0 0 ∧
    (deriveAlphaImage img4alpha).pix 0 0 3 = 7 ∧
    (deriveAlphaImage img4alpha).pix 0 0 3 ≠ 255 := by
  refine ⟨by decide, by decide, by decide⟩

/-- **C8** — The brightness-threshold alpha derivation is idempotent:
applied to its own output it returns that output unchanged (the derivation
does not alter colour channels, so the mask is unchanged, pixels it fired
on are already `0`, and the remaining alpha values are passed through). -/
theorem c8_derivation_idempotent (img : Img) :
    deriveAlphaImage (deriveAlphaImage img) = deriveAlphaImage img := by
  rw [deriveAlpha_of_ne3 (deriveAlphaImage img) (deriveAlpha_nch_ne3 img)]
  refine Img.ext rfl rfl rfl ?_
  funext i j ch
  dsimp only
  by_cases hch : ch = 3
  · subst hch
    rw [if_pos rfl, deriveAlpha_gray]
    by_cases hbr : brightnessThreshold < grayAt img i j
    · rw [if_pos hbr, deriveAlpha_pix3_bright img i j hbr]
    · rw [if_neg hbr]
  · rw [if_neg hch]

/-- **C10** — `load_sunglasses_with_alpha` returns the `None` sentinel
exactly when decoding failed; for the channel layouts `cv2.imdecode` can
produce with a channel axis (3 or 4 channels) the result is a loaded image
with exactly four channels; and a decodable single-channel source decodes
to a two-dimensional array, on which `img.shape[2]` raises `IndexError`
instead of returning the sentinel, so the loader is total only when the
decoded image has a channel axis with at least three channels. -/
theorem c10_loader_totality :
    (∀ d : DecodeOut, load_sunglasses_with_alpha d = .sentinel ↔ d = .fail) ∧
    (∀ img : Img, img.nch = 3 ∨ img.nch = 4 →
      load_sunglasses_with_alpha (.nd img) = .ok (deriveAlphaImage img) ∧
      (deriveAlphaImage img).nch = 4) ∧
    (∀ h w : ℕ, ∀ p : ℤ → ℤ → ℕ,
      load_sunglasses_with_alpha (.gray2d h w p) = .indexError) ∧
    LoadResult.indexError ≠ LoadResult.sentinel := by
  refine ⟨?_, ?_, fun h w p => rfl, by simp⟩
  · intro d
    cases d with
    | fail => exact ⟨fun _ => rfl, fun _ => rfl⟩
    | gray2d h w p =>
      constructor
      · intro hs
        exact absurd hs (by simp [load_sunglasses_with_alpha])
      · intro hf
        cases hf
    | nd img =>
      constructor
      · intro hs
        simp only [load_sunglasses_with_alpha] at hs
        split at hs
        · cases hs
        · split at hs
          · cases hs
          · cases hs
      · intro hf
        cases hf
  · intro img hnch
    constructor
    · simp only [load_sunglasses_with_alpha]
      rcases hnch with h3 | h4
      · rw [if_pos h3]
      · rw [if_neg (by omega), if_pos (by omega)]
    · rw [deriveAlpha_nch]
      rcases hnch with h3 | h4
      · rw [if_pos h3]
      · rw [if_neg (by omega), h4]

/-- A 1×1 four-channel raster for the loader evaluation. -/
def img4W : Img := ⟨1, 1, 4, fun _ _ _ => 5⟩

/-- Evaluation of **C10**: the loader turns both a 3-channel and a
4-channel decoded raster into four-channel results, and refuses the
two-dimensional grayscale array with `IndexError`. -/
theorem c10_loader_totality_witness :
    (load_sunglasses_with_alpha (.nd imgDark) = .ok (deriveAlphaImage imgDark) ∧
      (deriveAlphaImage imgDark).nch = 4) ∧
    ((img4W.nch = 3 ∨ img4W.nch = 4) ∧
      (deriveAlphaImage img4W).nch = 4) ∧
    load_sunglasses_with_alpha (.gray2d 1 1 (fun _ _ => 0)) = .indexError :=
  ⟨(c10_loader_totality.2.1 imgDark (Or.inl (by decide))),
    ⟨Or.inr (by decide), (c10_loader_totality.2.1 img4W (Or.inr (by decide))).2⟩,
    c10_loader_totality.2.2.1 1 1 (fun _ _ => 0)⟩

/-! ## Claim theorems: per-face geometry -/

/-- **C5** — The derived uniform scale is
`(euclidean distance between the iris centres) * 2.5 / overlay width`; in
particular distance `50` and width `200` give scale `0.625`. -/
theorem c5_scale_formula :
    (∀ lx ly rx ry : ℤ, ∀ w : ℕ,
      sunglassesScale lx ly rx ry w =
        Real.sqrt (((rx - lx : ℤ) : ℝ) ^ 2 + ((ry - ly : ℤ) : ℝ) ^ 2) * 2.5 / w) ∧
    sunglassesScale 0 0 50 0 200 = 0.625 := by
  constructor
  · intro lx ly rx ry w
    unfold sunglassesScale eye_distance
    push_cast
    ring_nf
  · unfold sunglassesScale eye_distance
    rw [show (((50 - 0 : ℤ) ^ 2 + (0 - 0 : ℤ) ^ 2 : ℤ) : ℝ) = (50 : ℝ) ^ 2 by norm_num]
    rw [Real.sqrt_sq (by norm_num : (0 : ℝ) ≤ 50)]
    norm_num

/-- **C6** (amended) — The rotation angle is `degrees(atan2(Δy, Δx))` with
`Δ = right - left`: when the eye centres share a `y` coordinate *and the
right centre lies strictly to the right* the angle is `0`, and when they
share an `x` coordinate with the right centre lower (larger `y`, image
coordinates) the angle is `+90`. -/
theorem c6_angle_cases (lx ly rx ry : ℤ) :
    (ly = ry → lx < rx → angleDeg lx ly rx ry = 0) ∧
    (lx = rx → ly < ry → angleDeg lx ly rx ry = 90) := by
  constructor
  · intro h1 h2
    have hdy : ((ry - ly : ℤ) : ℝ) = 0 := by rw [h1]; simp
    have hdx : (0 : ℝ) < ((rx - lx : ℤ) : ℝ) := by exact_mod_cast sub_pos.mpr h2
    unfold angleDeg atan2
    rw [if_pos hdx, hdy, zero_div, Real.arctan_zero, zero_mul, zero_div]
  · intro h1 h2
    have hdx : ((rx - lx : ℤ) : ℝ) = 0 := by rw [h1]; simp
    have hdy : (0 : ℝ) < ((ry - ly : ℤ) : ℝ) := by exact_mod_cast sub_pos.mpr h2
    unfold angleDeg atan2
    rw [hdx, if_neg (lt_irrefl 0), if_neg (lt_irrefl 0), if_pos hdy]
    field_simp
    ring

/-- Evaluation of **C6**: centres `(0,0)`,`(1,0)` give angle `0`; centres
`(0,0)`,`(0,1)` give angle `90`. -/
theorem c6_angle_cases_witness :
    ((0 : ℤ) = 0 ∧ (0 : ℤ) < 1) ∧ angleDeg 0 0 1 0 = 0 ∧ angleDeg 0 0 0 1 = 90 :=
  ⟨⟨rfl, by decide⟩, (c6_angle_cases 0 0 1 0).1 rfl (by decide),
    (c6_angle_cases 0 0 0 1).2 rfl (by decide)⟩

/-- Counterexample to **C6** as stated: with equal `y` coordinates but the
right iris centre to the *left* of the left one (`left = (1,0)`,
`right = (0,0)`), `atan2(0, -1) = π` and the derived angle is `180`,
not `0`. -/
theorem c6_counterexample :
    angleDeg 1 0 0 0 = 180 ∧ (180 : ℝ) ≠ 0 := by
  constructor
  · unfold angleDeg atan2
    rw [show ((0 - 0 : ℤ) : ℝ) = 0 by norm_num, show ((0 - 1 : ℤ) : ℝ) = -1 by norm_num]
    rw [if_neg (by norm_num), if_pos (by norm_num), if_pos (by norm_num)]
    rw [zero_div, Real.arctan_zero, zero_add]
    field_simp
  · norm_num

/-! ## Helper lemmas: `rotate_and_scale_image` at angle 0, scale 1 -/

lemma rotMat_zero_one (img : Img) : rotMat img 0 1 = ⟨1, 0, 0, 0, 1, 0⟩ := by
  simp [rotMat, getRotationMatrix2D]

lemma newW_zero_one (img : Img) : newW img 0 1 = (img.wdt : ℤ) := by
  unfold newW
  rw [rotMat_zero_one]
  simp

lemma newH_zero_one (img : Img) : newH img 0 1 = (img.hgt : ℤ) := by
  unfold newH
  rw [rotMat_zero_one]
  simp

lemma adjMat_zero_one (img : Img) : adjMat img 0 1 = ⟨1, 0, 0, 0, 1, 0⟩ := by
  unfold adjMat
  rw [rotMat_zero_one, newW_zero_one, newH_zero_one]
  simp

lemma invertAffine_id : invertAffine ⟨1, 0, 0, 0, 1, 0⟩ = ⟨1, 0, 0, 0, 1, 0⟩ := by
  unfold invertAffine
  norm_num

/-- At integer sample coordinates the bilinear interpolation degenerates to
the exact source sample (or the constant border outside the raster). -/
lemma bilinear_int (src : Img) (i j : ℤ) (ch : ℕ) :
    bilinear src (i : ℝ) (j : ℝ) ch =
      if 0 ≤ i ∧ i < (src.hgt : ℤ) ∧ 0 ≤ j ∧ j < (src.wdt : ℤ) then
        (src.pix i j ch : ℝ)
      else 0 := by
  unfold bilinear
  rw [Int.floor_intCast, Int.floor_intCast]
  simp

/-- Warping with the identity matrix copies every in-range pixel. -/
lemma warpAffine_id_pix (src : Img) (dw dh : ℕ) (i j : ℤ) (ch : ℕ)
    (h1 : 0 ≤ i) (h2 : i < (src.hgt : ℤ)) (h3 : 0 ≤ j) (h4 : j < (src.wdt : ℤ)) :
    (warpAffine src ⟨1, 0, 0, 0, 1, 0⟩ dw dh).pix i j ch = src.pix i j ch := by
  unfold warpAffine
  dsimp only
  rw [invertAffine_id]
  dsimp only
  rw [show (0 : ℝ) * (j : ℝ) + 1 * (i : ℝ) + 0 = (i : ℝ) by ring,
    show (1 : ℝ) * (j : ℝ) + 0 * (i : ℝ) + 0 = (j : ℝ) by ring]
  rw [bilinear_int, if_pos ⟨h1, h2, h3, h4⟩, round_natCast]
  exact Int.toNat_natCast _

/-- **C7** (amended) — `rotate_and_scale_image` sizes its canvas by the
rotated-bounding-box formula applied to the *scaled* rotation-matrix
entries, truncated to int: `new_w = int(h*|s*sin θ| + w*|s*cos θ|)` and
`new_h = int(h*|s*cos θ| + w*|s*sin θ|)`; `main` invokes it with the
negative of the measured angle; and at angle `0`, scale `1` the canvas has
the source's size and every in-range pixel is copied exactly. -/
theorem c7_rotate_and_scale (img : Img) (a s : ℝ) :
    ((rotate_and_scale_image img a s).wdt =
        (⌊(img.hgt : ℝ) * |s * Real.sin (a * π / 180)| +
          (img.wdt : ℝ) * |s * Real.cos (a * π / 180)|⌋).toNat ∧
      (rotate_and_scale_image img a s).hgt =
        (⌊(img.hgt : ℝ) * |s * Real.cos (a * π / 180)| +
          (img.wdt : ℝ) * |s * Real.sin (a * π / 180)|⌋).toNat) ∧
    (∀ lx ly rx ry : ℤ,
      transformedSunglasses img lx ly rx ry =
        rotate_and_scale_image img (-angleDeg lx ly rx ry)
          (sunglassesScale lx ly rx ry img.wdt)) ∧
    ((rotate_and_scale_image img 0 1).wdt = img.wdt ∧
      (rotate_and_scale_image img 0 1).hgt = img.hgt ∧
      (rotate_and_scale_image img 0 1).nch = img.nch ∧
      ∀ i j : ℤ, ∀ ch : ℕ, 0 ≤ i → i < (img.hgt : ℤ) → 0 ≤ j → j < (img.wdt : ℤ) →
        (rotate_and_scale_image img 0 1).pix i j ch = img.pix i j ch) := by
  refine ⟨⟨rfl, rfl⟩, fun lx ly rx ry => rfl, ?_, ?_, rfl, ?_⟩
  · show (newW img 0 1).toNat = img.wdt
    rw [newW_zero_one]
    exact Int.toNat_natCast _
  · show (newH img 0 1).toNat = img.hgt
    rw [newH_zero_one]
    exact Int.toNat_natCast _
  · intro i j ch h1 h2 h3 h4
    unfold rotate_and_scale_image
    rw [adjMat_zero_one]
    exact warpAffine_id_pix img _ _ i j ch h1 h2 h3 h4

/-- Evaluation of **C7**: the 2×2 raster `bgT` rotated by `0` at scale `1`
keeps its size and its pixel at the origin. -/
theorem c7_rotate_and_scale_witness :
    (rotate_and_scale_image bgT 0 1).wdt = bgT.wdt ∧
    (rotate_and_scale_image bgT 0 1).hgt = bgT.hgt ∧
    (rotate_and_scale_image bgT 0 1).pix 0 0 0 = bgT.pix 0 0 0 :=
  ⟨(c7_rotate_and_scale bgT 0 1).2.2.1, (c7_rotate_and_scale bgT 0 1).2.2.2.1,
    (c7_rotate_and_scale bgT 0 1).2.2.2.2.2 0 0 0 (by decide) (by decide) (by decide)
      (by decide)⟩

/-- A 1×1 BGR raster for the canvas-size counterexample. -/
def img11 : Img := ⟨1, 1, 3, fun _ _ _ => 0⟩

/-- Counterexample to **C7** as stated: at angle `0` and scale `2` the
output canvas of a 1×1 raster is 2 pixels wide, while the claimed formula
`h*|sin θ| + w*|cos θ|` (without the scale factor) gives `1`. -/
theorem c7_counterexample :
    (rotate_and_scale_image img11 0 2).wdt = 2 ∧
    (img11.hgt : ℝ) * |Real.sin ((0 : ℝ) * π / 180)| +
      (img11.wdt : ℝ) * |Real.cos ((0 : ℝ) * π / 180)| = 1 ∧
    ((rotate_and_scale_image img11 0 2).wdt : ℝ) ≠
      (img11.hgt : ℝ) * |Real.sin ((0 : ℝ) * π / 180)| +
        (img11.wdt : ℝ) * |Real.cos ((0 : ℝ) * π / 180)| := by
  have h1 : (rotate_and_scale_image img11 0 2).wdt = 2 := by
    show (newW img11 0 2).toNat = 2
    unfold newW rotMat getRotationMatrix2D
    norm_num [img11]
    rfl
  have h2 : (img11.hgt : ℝ) * |Real.sin ((0 : ℝ) * π / 180)| +
      (img11.wdt : ℝ) * |Real.cos ((0 : ℝ) * π / 180)| = 1 := by
    norm_num [img11]
  refine ⟨h1, h2, ?_⟩
  rw [h1, h2]
  norm_num
